import Mathlib

/-!
Verification of the whisperdoc terminal client core against its specification.

Shallow embedding of:
- `whisper_shell/logic/handshake.py`   (HandshakeStateMachine)
- `whisper_shell/logic/sanitizer.py`   (Sanitizer)
- `whisper_shell/logic/audio_buffer.py` (AudioBufferManager)
- `whisper_shell/services/transport_service.py` (TransportService)
- `whisper_shell/services/audio_service.py`     (AudioService.audio_callback)

Machine integers are modelled with Nat/Int (explicit wrap where numpy casts
wrap); Python floats are idealised as exact rationals; asyncio side effects
(timer tasks, websocket sends, listener dispatch) are made explicit as pure
state passing plus emitted-action records.
-/

/-- A PCM chunk: an immutable byte sequence (each entry a byte value). -/
abbrev Chunk := List Nat

/-! ## Handshake state machine (`logic/handshake.py`) -/

/-- The five states of `HandshakeState` (Python `Enum`). -/
inductive HandshakeState where
  | LOCKED
  | AUTHENTICATING
  | AUTHENTICATED
  | FAILED
  | BANNED
deriving DecidableEq, Repr

/-- State of a `HandshakeStateMachine` instance: the current `_state` and
whether a `_timeout_task` is currently pending (`_timeout_task is not None`
and not yet cancelled).  Listener dispatch in `transition_to` only performs
side effects on external callbacks and does not touch this state. -/
structure HSM where
  state : HandshakeState
  timeoutActive : Bool
deriving DecidableEq, Repr

namespace HSM

/-- `HandshakeStateMachine._is_valid_transition`, line for line. -/
def is_valid_transition (from_state to_state : HandshakeState) : Bool :=
  if to_state = HandshakeState.BANNED then true
  else if from_state = HandshakeState.LOCKED then
    decide (to_state = HandshakeState.AUTHENTICATING ∨ to_state = HandshakeState.FAILED)
  else if from_state = HandshakeState.AUTHENTICATING then
    decide (to_state = HandshakeState.AUTHENTICATED ∨ to_state = HandshakeState.FAILED)
  else if from_state = HandshakeState.AUTHENTICATED then
    decide (to_state = HandshakeState.LOCKED)
  else if from_state = HandshakeState.FAILED then
    decide (to_state = HandshakeState.LOCKED)
  else if from_state = HandshakeState.BANNED then
    decide (to_state = HandshakeState.LOCKED)
  else false

/-- `HandshakeStateMachine.transition_to`: no-op when the state is unchanged
or the edge is invalid; otherwise update the state, then arm the timeout on
entering AUTHENTICATING (`_start_timeout`) and cancel it on entering any
other state (`_cancel_timeout`). -/
def transition_to (m : HSM) (new_state : HandshakeState) : HSM :=
  if m.state = new_state then m
  else if is_valid_transition m.state new_state = false then m
  else { state := new_state, timeoutActive := decide (new_state = HandshakeState.AUTHENTICATING) }

/-- `HandshakeStateMachine.can_send_audio`. -/
def can_send_audio (m : HSM) : Bool :=
  decide (m.state = HandshakeState.AUTHENTICATED)

/-- `HandshakeStateMachine.reset`: `_cancel_timeout()` then
`transition_to(LOCKED)`. -/
def reset (m : HSM) : HSM :=
  transition_to { m with timeoutActive := false } HandshakeState.LOCKED

end HSM

/-! ## Sanitizer (`logic/sanitizer.py`) -/

namespace Sanitizer

/-- Complement of `WHITELIST_REGEX = [^\x20-\x7E\n\r\t]`: the characters the
whitelist substitution keeps. -/
def isWhitelisted (c : Char) : Bool :=
  decide ((0x20 ≤ c.toNat ∧ c.toNat ≤ 0x7E) ∨ c = '\n' ∨ c = '\r' ∨ c = '\t')

/-- Characters matched by `[0-9;]` inside the CSI alternative of
`ANSI_ESCAPE_REGEX`. -/
def isAnsiBody (c : Char) : Bool :=
  decide (('0' ≤ c ∧ c ≤ '9') ∨ c = ';')

/-- Characters matched by the final `[mGKH]` of the CSI alternative. -/
def isCsiFinal (c : Char) : Bool :=
  decide (c = 'm' ∨ c = 'G' ∨ c = 'K' ∨ c = 'H')

/-- Lazy scan for `.*?\x07` of the OSC alternative: `.` matches any
character except a newline, so the match ends at the first BEL provided no
newline occurs before it.  Returns the remainder after the BEL on success. -/
def oscScan : List Char → Option (List Char)
  | [] => none
  | c :: rest =>
    if c = '\x07' then some rest
    else if c = '\n' then none
    else oscScan rest

/-- Try to match `ANSI_ESCAPE_REGEX` at a position whose character is ESC;
`rest` is the input after that ESC.  First alternative `\x1b\[[0-9;]*[mGKH]`
(greedy `[0-9;]*` never benefits from backtracking because the digits and
semicolons are disjoint from `[mGKH]`), second alternative `\x1b]0;.*?\x07`.
Returns the remainder after the match, or `none` when neither matches. -/
def matchAnsiAt (rest : List Char) : Option (List Char) :=
  match rest with
  | '[' :: r2 =>
    match r2.dropWhile isAnsiBody with
    | f :: r3 => if isCsiFinal f then some r3 else none
    | [] => none
  | ']' :: '0' :: ';' :: r2 => oscScan r2
  | _ => none

/-- `ANSI_ESCAPE_REGEX.sub('', text)`: left-to-right scan; at each ESC try to
match the regex and drop the match, otherwise keep the character and move
on.  Fuelled structural recursion; fuel `= length` always suffices because
every step consumes at least one character, so the fuel-0 fallback is never
reached from `ansiSub`. -/
def ansiSubFuel : Nat → List Char → List Char
  | 0, l => l
  | _ + 1, [] => []
  | fuel + 1, c :: rest =>
    if c = '\x1b' then
      match matchAnsiAt rest with
      | some r => ansiSubFuel fuel r
      | none => c :: ansiSubFuel fuel rest
    else c :: ansiSubFuel fuel rest

/-- `ANSI_ESCAPE_REGEX.sub('', text)` on a character list. -/
def ansiSub (l : List Char) : List Char :=
  ansiSubFuel l.length l

/-- The code points Python `str.strip()` removes (Unicode whitespace). -/
def isPyWhitespace (c : Char) : Bool :=
  decide ((9 ≤ c.toNat ∧ c.toNat ≤ 13) ∨ (28 ≤ c.toNat ∧ c.toNat ≤ 32) ∨
    c.toNat = 0x85 ∨ c.toNat = 0xA0 ∨ c.toNat = 0x1680 ∨
    (0x2000 ≤ c.toNat ∧ c.toNat ≤ 0x200A) ∨ c.toNat = 0x2028 ∨ c.toNat = 0x2029 ∨
    c.toNat = 0x202F ∨ c.toNat = 0x205F ∨ c.toNat = 0x3000)

/-- Left part of `str.strip()`. -/
def stripLeft (l : List Char) : List Char :=
  l.dropWhile isPyWhitespace

/-- Right part of `str.strip()`. -/
def stripRight (l : List Char) : List Char :=
  (l.reverse.dropWhile isPyWhitespace).reverse

/-- Python `str.strip()`: remove leading and trailing whitespace. -/
def pstrip (l : List Char) : List Char :=
  stripRight (stripLeft l)

/-- `Sanitizer.sanitize` on a character list: empty in, empty out; otherwise
strip ANSI escapes, apply the whitelist, and trim.  The `try/except` in the
source cannot fire for these total operations. -/
def sanitizeCore (l : List Char) : List Char :=
  if l = [] then []
  else pstrip (List.filter isWhitelisted (ansiSub l))

/-- `Sanitizer.sanitize` on strings. -/
def sanitize (s : String) : String :=
  String.mk (sanitizeCore s.data)

end Sanitizer

/-! ## Audio buffer (`logic/audio_buffer.py`) -/

/-- State of an `AudioBufferManager`: the `_buffer` list and `_is_buffering`. -/
structure AudioBufferManager where
  buffer : List Chunk
  isBuffering : Bool
deriving DecidableEq, Repr

namespace AudioBufferManager

/-- `MAX_CHUNKS` safety cap. -/
def MAX_CHUNKS : Nat := 20000

/-- `AudioBufferManager.add`: when buffering, pop the oldest chunk first if
the cap is reached, then append; when not buffering, silently do nothing. -/
def add (b : AudioBufferManager) (chunk : Chunk) : AudioBufferManager :=
  if b.isBuffering then
    if MAX_CHUNKS ≤ b.buffer.length then
      { b with buffer := b.buffer.tail ++ [chunk] }
    else
      { b with buffer := b.buffer ++ [chunk] }
  else b

/-- Micro-steps performed by `flush`, in execution order: clearing the
internal list, setting `_is_buffering = False`, and each awaited
`send_callback(chunk)`. -/
inductive FlushStep where
  | clearBuffer
  | stopBuffering
  | send (chunk : Chunk)
deriving DecidableEq, Repr

/-- `AudioBufferManager.flush`: final state together with the ordered trace
of its effects.  Empty buffer: just switch buffering off.  Otherwise copy,
clear, switch buffering off, then await `send_callback` on each chunk in
original order. -/
def flush (b : AudioBufferManager) : AudioBufferManager × List FlushStep :=
  if b.buffer = [] then
    ({ b with isBuffering := false }, [FlushStep.stopBuffering])
  else
    ({ buffer := [], isBuffering := false },
      FlushStep.clearBuffer :: FlushStep.stopBuffering :: b.buffer.map FlushStep.send)

/-- `AudioBufferManager.clear`. -/
def clear (_b : AudioBufferManager) : AudioBufferManager :=
  { buffer := [], isBuffering := true }

/-- The chunks sent by a trace of flush steps, in order. -/
def sentChunks (steps : List FlushStep) : List Chunk :=
  steps.filterMap fun s =>
    match s with
    | FlushStep.send c => some c
    | _ => none

/-- Whether a flush step is a send. -/
def isSend (s : FlushStep) : Bool :=
  match s with
  | FlushStep.send _ => true
  | _ => false

end AudioBufferManager

/-! ## Transport service (`services/transport_service.py`) -/

/-- A received JSON text frame, reduced to the fields `_handle_raw_message`
inspects: `msg.get("event")` and `msg.get("code")`. -/
structure Msg where
  event : Option String
  code : Option Int
deriving DecidableEq, Repr

/-- State of a `TransportService`: the owned handshake machine, whether
`_ws` is present (truthy), the idle timer (`some a` = an armed `_idle_timer`
task that has slept `a` whole seconds so far; `none` = no pending timer),
and the number of registered `_message_listeners`. -/
structure TransportService where
  hs : HSM
  wsPresent : Bool
  idleAge : Option Nat
  listeners : Nat
deriving DecidableEq, Repr

namespace TransportService

/-- `cfg.IDLE_TIMEOUT` default (300 s). -/
def IDLE_TIMEOUT : Nat := 300

/-- `TransportService._reset_idle_timer`: cancel any pending timer task and
arm a fresh one (elapsed time 0). -/
def reset_idle_timer (s : TransportService) : TransportService :=
  { s with idleAge := some 0 }

/-- `TransportService.send_audio`: emit the chunk as a binary frame iff
`handshake.can_send_audio()` and `_ws` is present; in that case the idle
timer is re-armed first.  Otherwise do nothing (the chunk is dropped). -/
def send_audio (s : TransportService) (chunk : Chunk) :
    TransportService × Option Chunk :=
  if HSM.can_send_audio s.hs = true ∧ s.wsPresent = true then
    (reset_idle_timer s, some chunk)
  else
    (s, none)

/-- `TransportService._send_json`: when `_ws` is present, re-arm the idle
timer and send a text frame (the Bool records whether a frame was sent). -/
def send_json (s : TransportService) : TransportService × Bool :=
  if s.wsPresent = true then (reset_idle_timer s, true) else (s, false)

/-- `TransportService.disconnect`: reset the handshake, cancel and drop the
idle timer, cancel the receive task, close and null the socket. -/
def disconnect (s : TransportService) : TransportService :=
  { hs := HSM.reset s.hs, wsPresent := false, idleAge := none,
    listeners := s.listeners }

/-- `TransportService._handle_raw_message` on a text frame that parsed to a
JSON object: re-arm the idle timer, then dispatch on the event.  Returns the
new state and the number of message listeners the frame was delivered to
(each registered callback is awaited once, in registration order). -/
def handle_raw_message (s : TransportService) (m : Msg) :
    TransportService × Nat :=
  let s1 := reset_idle_timer s
  match m.event with
  | some "hello" => (s1, 0)
  | some "authenticated" =>
    ({ s1 with hs := HSM.transition_to s1.hs HandshakeState.AUTHENTICATED }, 0)
  | some "error" =>
    let s2 :=
      if m.code = some 401 ∨ m.code = some 403 ∨ m.code = some 1008 then
        let sF := { s1 with hs := HSM.transition_to s1.hs HandshakeState.FAILED }
        if m.code = some 1008 then
          { sF with hs := HSM.transition_to sF.hs HandshakeState.BANNED }
        else sF
      else s1
    (s2, s.listeners)
  | _ => (s1, s.listeners)

/-- The externally visible events that touch the idle timer: an attempted
audio send, an attempted JSON send, a received text frame, a received
binary frame (ignored by `_handle_raw_message`), and one second of wall
clock passing for the armed timer task. -/
inductive TEvent where
  | sendAudioEv (chunk : Chunk)
  | sendJsonEv
  | recvTextEv (m : Msg)
  | recvBinaryEv
  | tickEv
deriving DecidableEq, Repr

/-- Result of one event step: successor state, whether
`_reset_idle_timer()` was invoked, the binary frame emitted (if any),
whether a text frame was emitted, and the reason passed to `disconnect`
when the step disconnected. -/
structure StepResult where
  next : TransportService
  rearmed : Bool
  sentBinary : Option Chunk
  sentText : Bool
  disconnectReason : Option String
deriving DecidableEq, Repr

/-- One second of wall clock for the armed idle-timer task
(`_reset_idle_timer`'s inner `_timeout` coroutine): the task sleeps
`IDLE_TIMEOUT` seconds in total, then — only if `_ws` is present — calls
`disconnect(reason="Idle Timeout")`; either way the task then completes. -/
def tick (s : TransportService) : StepResult :=
  match s.idleAge with
  | none => ⟨s, false, none, false, none⟩
  | some a =>
    if a + 1 < IDLE_TIMEOUT then
      ⟨{ s with idleAge := some (a + 1) }, false, none, false, none⟩
    else if s.wsPresent then
      ⟨disconnect s, false, none, false, some "Idle Timeout"⟩
    else
      ⟨{ s with idleAge := none }, false, none, false, none⟩

/-- The step function tying the events to the code paths above. -/
def step (s : TransportService) (e : TEvent) : StepResult :=
  match e with
  | TEvent.sendAudioEv c =>
    let r := send_audio s c
    ⟨r.1, r.2.isSome, r.2, false, none⟩
  | TEvent.sendJsonEv =>
    let r := send_json s
    ⟨r.1, r.2, none, r.2, none⟩
  | TEvent.recvTextEv m =>
    let r := handle_raw_message s m
    ⟨r.1, true, none, false, none⟩
  | TEvent.recvBinaryEv => ⟨s, false, none, false, none⟩
  | TEvent.tickEv => tick s

end TransportService

/-! ## Audio capture callback (`services/audio_service.py`) -/

namespace AudioService

/-- `np.linspace(0, d, n)`: `n` evenly spaced points from 0 to `d`
inclusive. -/
def linspace (d : ℚ) (n : Nat) : List ℚ :=
  if n ≤ 1 then List.replicate n 0
  else (List.range n).map fun i => (i : ℚ) * d / ((n : ℚ) - 1)

/-- One linear-interpolation segment of `np.interp`. -/
def interpSeg (x x1 y1 x2 y2 : ℚ) : ℚ :=
  y1 + (y2 - y1) * (x - x1) / (x2 - x1)

/-- `np.interp(x, xp, fp)` for one query point over the (sorted) grid given
as `(xp, fp)` pairs: clamp to the first value below the grid, clamp to the
last value above it, linear in between. -/
def interp1 (x : ℚ) : List (ℚ × ℚ) → ℚ
  | [] => 0
  | [(_, y1)] => y1
  | (x1, y1) :: (x2, y2) :: rest =>
    if x < x1 then y1
    else if x ≤ x2 then interpSeg x x1 y1 x2 y2
    else interp1 x ((x2, y2) :: rest)

/-- Truncation toward zero, as Python `int()` on a float. -/
def ratTrunc (q : ℚ) : Int :=
  if 0 ≤ q then ⌊q⌋ else ⌈q⌉

/-- Wrap an integer into the int16 range, as the numpy
`astype(np.int16)` cast does for the (idealised) truncated value. -/
def wrap16 (x : Int) : Int :=
  (x + 32768) % 65536 - 32768

/-- Little-endian byte encoding of an int16 value (numpy `tobytes()`). -/
def int16LEBytes (x : Int) : List Nat :=
  [((x % 65536).toNat) % 256, ((x % 65536).toNat) / 256]

/-- The resampling branch of `audio_callback`:
`duration = len(indata) / device_rate`, `new_len = int(duration * 16000)`
(truncation), then `np.interp` of the flattened input onto the new grid. -/
def resample (indata : List ℚ) (device_rate : Nat) : List ℚ :=
  let duration : ℚ := (indata.length : ℚ) / (device_rate : ℚ)
  let new_len : Nat := (⌊duration * 16000⌋).toNat
  let pts := (linspace duration indata.length).zip indata
  (linspace duration new_len).map fun x => interp1 x pts

/-- `(audio * 32767).astype(np.int16)` on one sample: scale, truncate toward
zero, wrap into int16. -/
def toInt16 (q : ℚ) : Int :=
  wrap16 (ratTrunc (q * 32767))

/-- The PCM chunk produced by one `audio_callback` invocation with
`is_recording` set: resample when the device rate differs from 16 kHz, then
convert each f32 sample to int16 and serialise little-endian
(`.astype(np.int16).tobytes()`). -/
def audio_callback (indata : List ℚ) (device_rate : Nat) : List Nat :=
  let audio := if device_rate ≠ 16000 then resample indata device_rate else indata
  (audio.map toInt16).flatMap int16LEBytes

/-- Linear-interpolation resampling of `indata` to `n` samples over a unit
span, as the spec phrases "resampled by linear interpolation to n samples"
independently of the code's time coordinates. -/
def specResample (indata : List ℚ) (n : Nat) : List ℚ :=
  (linspace 1 n).map fun x => interp1 x ((linspace 1 indata.length).zip indata)

/-- Saturation at the int16 bounds, per the claim's words. -/
def saturate16 (x : Int) : Int :=
  max (-32768) (min 32767 x)

/-- The chunk C3 claims `audio_callback` produces (modelled from the claim's
words, for comparison with `audio_callback`): resample to
`round(frames * 16000 / device_rate)` samples, then
`round(sample * 32767)` saturated at the int16 bounds, little-endian. -/
def claimChunk (indata : List ℚ) (device_rate : Nat) : List Nat :=
  let n : Nat := (round ((indata.length : ℚ) * 16000 / (device_rate : ℚ))).toNat
  let audio := if device_rate ≠ 16000 then specResample indata n else indata
  (audio.map fun q => saturate16 (round (q * 32767))).flatMap int16LEBytes

end AudioService

namespace AudioService

/-- The chunk the amended C3 describes (modelled from the amended claim's
words): resample by linear interpolation to `⌊frames * 16000 / device_rate⌋`
samples (Python `int()` truncates the float frame count), then convert each
sample by truncation toward zero of `sample * 32767`, wrapping into the
int16 range as the numpy cast does (inputs in `[-1, 1]` stay in range), and
serialise little-endian. -/
def amendedChunk (indata : List ℚ) (device_rate : Nat) : List Nat :=
  let n : Nat := indata.length * 16000 / device_rate
  let audio := if device_rate ≠ 16000 then specResample indata n else indata
  (audio.map fun q => wrap16 (ratTrunc (q * 32767))).flatMap int16LEBytes

end AudioService

/-! ## Helper lemmas -/

namespace Sanitizer

lemma dropWhile_idem (p : Char → Bool) (l : List Char) :
    (l.dropWhile p).dropWhile p = l.dropWhile p := by
  induction l with
  | nil => simp
  | cons c t ih =>
    by_cases h : p c
    · simp [List.dropWhile_cons, h, ih]
    · simp [List.dropWhile_cons, h]

lemma head?_dropWhile (p : Char → Bool) (l : List Char) (c : Char)
    (h : (l.dropWhile p).head? = some c) : p c = false := by
  induction l with
  | nil => simp at h
  | cons a t ih =>
    by_cases ha : p a
    · rw [List.dropWhile_cons, if_pos ha] at h
      exact ih h
    · rw [List.dropWhile_cons, if_neg ha] at h
      simp at h
      subst h
      simpa using ha

lemma mem_dropWhile (p : Char → Bool) (l : List Char) (c : Char)
    (h : c ∈ l.dropWhile p) : c ∈ l :=
  (List.dropWhile_sublist p).mem h

lemma stripRight_append (l : List Char) :
    l = stripRight l ++ (l.reverse.takeWhile isPyWhitespace).reverse := by
  unfold stripRight
  rw [← List.reverse_append, List.takeWhile_append_dropWhile, List.reverse_reverse]

lemma stripRight_idem (l : List Char) : stripRight (stripRight l) = stripRight l := by
  unfold stripRight
  rw [List.reverse_reverse, dropWhile_idem]

lemma mem_stripRight (l : List Char) (c : Char) (h : c ∈ stripRight l) : c ∈ l := by
  unfold stripRight at h
  rw [List.mem_reverse] at h
  have := mem_dropWhile _ _ _ h
  rwa [List.mem_reverse] at this

lemma mem_pstrip (l : List Char) (c : Char) (h : c ∈ pstrip l) : c ∈ l :=
  mem_dropWhile _ _ _ (mem_stripRight _ _ h)

lemma head?_stripRight (l : List Char) (c : Char) (h : (stripRight l).head? = some c) :
    l.head? = some c := by
  have happ := stripRight_append l
  cases hsr : stripRight l with
  | nil => rw [hsr] at h; simp at h
  | cons a t =>
    rw [hsr] at h happ
    simp at h
    rw [happ]
    simpa using h

lemma head?_pstrip (l : List Char) (c : Char) (h : (pstrip l).head? = some c) :
    isPyWhitespace c = false :=
  head?_dropWhile _ _ _ (head?_stripRight _ _ h)

lemma getLast?_pstrip (l : List Char) (c : Char) (h : (pstrip l).getLast? = some c) :
    isPyWhitespace c = false := by
  unfold pstrip stripRight at h
  rw [List.getLast?_reverse] at h
  exact head?_dropWhile _ _ _ h

lemma stripLeft_of_head_false (l : List Char)
    (h : ∀ c, l.head? = some c → isPyWhitespace c = false) : stripLeft l = l := by
  cases l with
  | nil => rfl
  | cons a t =>
    have := h a (by simp)
    simp [stripLeft, List.dropWhile_cons, this]

lemma pstrip_idem (l : List Char) : pstrip (pstrip l) = pstrip l := by
  unfold pstrip
  have h1 : stripLeft (stripRight (stripLeft l)) = stripRight (stripLeft l) := by
    apply stripLeft_of_head_false
    intro c hc
    exact head?_dropWhile _ _ _ (head?_stripRight _ _ hc)
  rw [h1, stripRight_idem]

lemma ansiSubFuel_of_not_mem (fuel : Nat) (l : List Char) (h : '\x1b' ∉ l) :
    ansiSubFuel fuel l = l := by
  induction fuel generalizing l with
  | zero => rfl
  | succ n ih =>
    cases l with
    | nil => rfl
    | cons c rest =>
      have hc : ¬(c = '\x1b') := by
        intro hh
        exact h (hh ▸ List.mem_cons_self c rest)
      have hrest : '\x1b' ∉ rest := fun hm => h (List.mem_cons_of_mem _ hm)
      simp [ansiSubFuel, hc, ih rest hrest]

lemma ansiSub_of_not_mem (l : List Char) (h : '\x1b' ∉ l) : ansiSub l = l :=
  ansiSubFuel_of_not_mem _ _ h

lemma mem_sanitizeCore_whitelisted (l : List Char) (c : Char)
    (h : c ∈ sanitizeCore l) : isWhitelisted c = true := by
  unfold sanitizeCore at h
  by_cases hl : l = []
  · simp [hl] at h
  · rw [if_neg hl] at h
    exact List.of_mem_filter (mem_pstrip _ _ h)

lemma esc_not_mem_sanitizeCore (l : List Char) : '\x1b' ∉ sanitizeCore l := by
  intro h
  have := mem_sanitizeCore_whitelisted _ _ h
  simp [isWhitelisted] at this

lemma sanitizeCore_idem (l : List Char) : sanitizeCore (sanitizeCore l) = sanitizeCore l := by
  by_cases h : sanitizeCore l = []
  · rw [h]; rfl
  · have hl : l ≠ [] := by
      intro hl
      rw [hl] at h
      exact h rfl
    have hval : sanitizeCore l = pstrip (List.filter isWhitelisted (ansiSub l)) := by
      unfold sanitizeCore
      rw [if_neg hl]
    rw [sanitizeCore, if_neg h, ansiSub_of_not_mem _ (esc_not_mem_sanitizeCore l),
      List.filter_eq_self.mpr (fun c hc => mem_sanitizeCore_whitelisted _ _ hc),
      hval, pstrip_idem]

end Sanitizer

namespace AudioService

lemma interpSeg_scale (c x x1 y1 x2 y2 : ℚ) (hc : c ≠ 0) :
    interpSeg (c * x) (c * x1) y1 (c * x2) y2 = interpSeg x x1 y1 x2 y2 := by
  unfold interpSeg
  have h1 : c * x - c * x1 = c * (x - x1) := by ring
  have h2 : c * x2 - c * x1 = c * (x2 - x1) := by ring
  have h3 : (y2 - y1) * (c * (x - x1)) = c * ((y2 - y1) * (x - x1)) := by ring
  rw [h1, h2, h3, mul_div_mul_left _ _ hc]

lemma interp1_scale (c : ℚ) (hc : 0 < c) (x : ℚ) (pts : List (ℚ × ℚ)) :
    interp1 (c * x) (pts.map fun p => (c * p.1, p.2)) = interp1 x pts := by
  induction pts with
  | nil => simp [interp1]
  | cons p1 tl ih =>
    cases tl with
    | nil =>
      obtain ⟨x1, y1⟩ := p1
      simp [interp1]
    | cons p2 tl2 =>
      obtain ⟨x1, y1⟩ := p1
      obtain ⟨x2, y2⟩ := p2
      simp only [List.map_cons] at ih ⊢
      rw [interp1, interp1]
      by_cases hx1 : x < x1
      · rw [if_pos hx1, if_pos ((mul_lt_mul_left hc).mpr hx1)]
      · have hx1m : ¬ c * x < c * x1 := fun hh => hx1 ((mul_lt_mul_left hc).mp hh)
        rw [if_neg hx1m, if_neg hx1]
        by_cases hx2 : x ≤ x2
        · rw [if_pos ((mul_le_mul_left hc).mpr hx2), if_pos hx2,
            interpSeg_scale _ _ _ _ _ _ (ne_of_gt hc)]
        · have hx2m : ¬ c * x ≤ c * x2 := fun hh => hx2 ((mul_le_mul_left hc).mp hh)
          rw [if_neg hx2m, if_neg hx2]
          exact ih

lemma linspace_scale (d : ℚ) (n : Nat) :
    linspace d n = (linspace 1 n).map (fun x => d * x) := by
  unfold linspace
  by_cases hn : n ≤ 1
  · rw [if_pos hn, if_pos hn, List.map_replicate]
    simp
  · rw [if_neg hn, if_neg hn, List.map_map]
    apply List.map_congr_left
    intro i _
    simp only [Function.comp_apply]
    field_simp
    ring

lemma zip_linspace_scale (d : ℚ) (m : Nat) (fp : List ℚ) :
    (linspace d m).zip fp = ((linspace 1 m).zip fp).map (fun p => (d * p.1, p.2)) := by
  rw [linspace_scale, List.zip_map_left]
  apply List.map_congr_left
  intro p _
  rfl

lemma resample_eq_specResample (indata : List ℚ) (rate : Nat) (hr : 0 < rate)
    (hne : indata ≠ []) :
    resample indata rate = specResample indata (indata.length * 16000 / rate) := by
  unfold resample specResample
  dsimp only
  have hlen : 0 < indata.length := List.length_pos.mpr hne
  have hd : (0 : ℚ) < (indata.length : ℚ) / (rate : ℚ) := by
    apply div_pos <;> exact_mod_cast ‹_›
  have hN : (⌊(indata.length : ℚ) / (rate : ℚ) * 16000⌋).toNat =
      indata.length * 16000 / rate := by
    have hcast : (indata.length : ℚ) / (rate : ℚ) * 16000 =
        ((indata.length * 16000 : ℕ) : ℚ) / ((rate : ℕ) : ℚ) := by
      push_cast
      ring
    rw [hcast, Int.floor_toNat, Nat.floor_div_eq_div]
  rw [hN, linspace_scale ((indata.length : ℚ) / (rate : ℚ)) (indata.length * 16000 / rate),
    zip_linspace_scale, List.map_map]
  apply List.map_congr_left
  intro x _
  exact interp1_scale _ hd x _

end AudioService

/-! ## Claim theorems -/

/-- C1: a PCM chunk passed to `send_audio` is emitted on the socket as a
binary frame iff the handshake state is AUTHENTICATED (`can_send_audio`) and
the socket handle is present at the moment of the call; when either
condition fails, `send_audio` changes nothing, sends nothing and returns
without error (silent drop). -/
theorem c1_send_audio_gating : ∀ (s : TransportService) (c : Chunk),
    ((TransportService.send_audio s c).2 = some c ↔
      (HSM.can_send_audio s.hs = true ∧ s.wsPresent = true)) ∧
    (¬(HSM.can_send_audio s.hs = true ∧ s.wsPresent = true) →
      TransportService.send_audio s c = (s, none)) := by
  intro s c
  constructor
  · constructor
    · intro h
      by_contra hc
      simp [TransportService.send_audio, hc] at h
    · intro h
      simp [TransportService.send_audio, h]
  · intro h
    simp [TransportService.send_audio, h]

/-- Witness for C1: with state AUTHENTICATED and a socket the chunk is
emitted; with state LOCKED and no socket nothing happens. -/
theorem c1_send_audio_gating_witness :
    (TransportService.send_audio ⟨⟨HandshakeState.AUTHENTICATED, false⟩, true, some 0, 1⟩
      [1, 2]).2 = some [1, 2] ∧
    TransportService.send_audio ⟨⟨HandshakeState.LOCKED, false⟩, false, none, 1⟩ [1, 2] =
      (⟨⟨HandshakeState.LOCKED, false⟩, false, none, 1⟩, none) :=
  ⟨(c1_send_audio_gating ⟨⟨HandshakeState.AUTHENTICATED, false⟩, true, some 0, 1⟩
      [1, 2]).1.mpr (by decide),
   (c1_send_audio_gating ⟨⟨HandshakeState.LOCKED, false⟩, false, none, 1⟩ [1, 2]).2
      (by decide)⟩

/-- C2 counterexample: starting from AUTHENTICATING (with a pending timeout
task), `reset()` does NOT reach LOCKED — `transition_to(LOCKED)` rejects the
edge AUTHENTICATING → LOCKED — so the claim "for every starting handshake
state (including AUTHENTICATING) the state after reset is LOCKED" is false
at this input.  The timer is still cancelled. -/
theorem c2_reset_from_authenticating_cex :
    (HSM.reset ⟨HandshakeState.AUTHENTICATING, true⟩).state =
      HandshakeState.AUTHENTICATING ∧
    (HSM.reset ⟨HandshakeState.AUTHENTICATING, true⟩).state ≠ HandshakeState.LOCKED ∧
    (HSM.reset ⟨HandshakeState.AUTHENTICATING, true⟩).timeoutActive = false := by
  decide

/-- C2 amended: after `reset()` any pending handshake-timeout task has been
cancelled, and the state is LOCKED for every starting state EXCEPT
AUTHENTICATING, from which the (invalid) edge is refused and the state is
unchanged. -/
theorem c2_reset_amended : ∀ m : HSM,
    (HSM.reset m).timeoutActive = false ∧
    (HSM.reset m).state =
      (if m.state = HandshakeState.AUTHENTICATING then m.state
       else HandshakeState.LOCKED) := by
  intro m
  obtain ⟨s, t⟩ := m
  cases s <;> cases t <;> decide

/-- C3 counterexample: at 3 input frames of value 0.5 with a 32 kHz device,
`audio_callback` produces `int(3·16000/32000) = 1` sample of value
`trunc(0.5·32767) = 16383` (bytes `[255, 63]`), while the claim's
`round(3·16000/32000) = 2` samples of `round(0.5·32767) = 16384` give
`[0, 64, 0, 64]` — so the claim's chunk (`claimChunk`, built from its words)
differs from the code's. -/
theorem c3_resample_rounding_cex :
    AudioService.audio_callback [(1:ℚ)/2, 1/2, 1/2] 32000 ≠
      AudioService.claimChunk [(1:ℚ)/2, 1/2, 1/2] 32000 := by
  have h1 : AudioService.audio_callback [(1:ℚ)/2, 1/2, 1/2] 32000 = [255, 63] := by
    norm_num [AudioService.audio_callback, AudioService.resample, AudioService.linspace,
      AudioService.interp1, AudioService.interpSeg, AudioService.toInt16, AudioService.ratTrunc,
      AudioService.wrap16, AudioService.int16LEBytes, List.range_succ]
    decide
  have h2 : AudioService.claimChunk [(1:ℚ)/2, 1/2, 1/2] 32000 = [0, 64, 0, 64] := by
    norm_num [AudioService.claimChunk, AudioService.specResample, AudioService.linspace,
      AudioService.interp1, AudioService.interpSeg, AudioService.saturate16,
      AudioService.int16LEBytes, List.range_succ, round_eq, show Int.toNat 2 = 2 from rfl]
    decide
  rw [h1, h2]
  decide

/-- C3 amended: for every non-empty input and positive device rate, the
produced PCM chunk equals the input resampled by linear interpolation to
`⌊frames·16000/device_rate⌋` samples (truncation, not rounding) when the
device rate is not 16 kHz, with each resulting sample converted to a
little-endian signed 16-bit integer by truncation toward zero of
`sample·32767` (the numpy cast wraps rather than saturates; samples in
`[-1, 1]` never leave the int16 range). -/
theorem c3_audio_callback_amended : ∀ (indata : List ℚ) (rate : Nat),
    0 < rate → indata ≠ [] →
    AudioService.audio_callback indata rate = AudioService.amendedChunk indata rate := by
  intro i r hr hne
  unfold AudioService.audio_callback AudioService.amendedChunk
  dsimp only
  rw [show AudioService.toInt16 =
    (fun q => AudioService.wrap16 (AudioService.ratTrunc (q * 32767))) from rfl]
  by_cases h : r ≠ 16000
  · rw [if_pos h, if_pos h, AudioService.resample_eq_specResample i r hr hne]
  · rw [if_neg h, if_neg h]

/-- Witness for C3 amended, at 3 frames of 0.5 and a 32 kHz device. -/
theorem c3_audio_callback_amended_witness :
    (0 < 32000) ∧ ([(1:ℚ)/2, 1/2, 1/2] ≠ ([] : List ℚ)) ∧
    AudioService.audio_callback [(1:ℚ)/2, 1/2, 1/2] 32000 =
      AudioService.amendedChunk [(1:ℚ)/2, 1/2, 1/2] 32000 :=
  ⟨by decide, by simp,
   c3_audio_callback_amended [(1:ℚ)/2, 1/2, 1/2] 32000 (by decide) (by simp)⟩

/-- C4 counterexample: an `error` frame with code 401 received while the
handshake state is AUTHENTICATED leaves the state AUTHENTICATED — the edge
AUTHENTICATED → FAILED is invalid, so `transition_to` refuses it — refuting
"if its code is 401 or 403 the handshake state becomes FAILED". -/
theorem c4_error_from_authenticated_cex :
    (TransportService.handle_raw_message
        ⟨⟨HandshakeState.AUTHENTICATED, false⟩, true, some 0, 1⟩
        ⟨some "error", some 401⟩).1.hs.state = HandshakeState.AUTHENTICATED := by
  decide

/-- C4 amended: for every received `error` frame, the message is delivered
to every registered message listener; code 1008 always drives the state to
BANNED (that edge is unconditionally allowed); codes 401/403 drive the
state to FAILED exactly when the current state is LOCKED, AUTHENTICATING or
FAILED — from AUTHENTICATED or BANNED the transition is invalid and the
state is unchanged. -/
theorem c4_error_dispatch_amended : ∀ (s : TransportService) (m : Msg),
    m.event = some "error" →
    (TransportService.handle_raw_message s m).2 = s.listeners ∧
    (m.code = some 1008 →
      (TransportService.handle_raw_message s m).1.hs.state = HandshakeState.BANNED) ∧
    ((m.code = some 401 ∨ m.code = some 403) →
      (TransportService.handle_raw_message s m).1.hs.state =
        (if s.hs.state = HandshakeState.LOCKED ∨ s.hs.state = HandshakeState.AUTHENTICATING ∨
            s.hs.state = HandshakeState.FAILED
          then HandshakeState.FAILED else s.hs.state)) := by
  intro s m hev
  obtain ⟨ev, code⟩ := m
  subst hev
  refine ⟨by simp [TransportService.handle_raw_message], ?_, ?_⟩
  · rintro rfl
    obtain ⟨⟨hs, ht⟩, ws, ia, ls⟩ := s
    cases hs <;> simp [TransportService.handle_raw_message, TransportService.reset_idle_timer,
      HSM.transition_to, HSM.is_valid_transition]
  · rintro (rfl | rfl) <;>
    · obtain ⟨⟨hs, ht⟩, ws, ia, ls⟩ := s
      cases hs <;> simp [TransportService.handle_raw_message, TransportService.reset_idle_timer,
        HSM.transition_to, HSM.is_valid_transition]

/-- Witness for C4 amended: a 1008 error received while AUTHENTICATING
yields BANNED. -/
theorem c4_error_dispatch_amended_witness :
    (TransportService.handle_raw_message
        ⟨⟨HandshakeState.AUTHENTICATING, true⟩, true, some 3, 2⟩
        ⟨some "error", some 1008⟩).1.hs.state = HandshakeState.BANNED :=
  (c4_error_dispatch_amended ⟨⟨HandshakeState.AUTHENTICATING, true⟩, true, some 3, 2⟩
    ⟨some "error", some 1008⟩ rfl).2.1 rfl

/-- C5 counterexample: a received text frame (a `status` message, not an
outbound send — no binary or text frame is emitted) cancels and re-arms the
idle timer: from timer age 5 the step re-arms to age 0, refuting "no other
event re-arms it". -/
theorem c5_recv_text_rearms_cex :
    (TransportService.step ⟨⟨HandshakeState.AUTHENTICATED, false⟩, true, some 5, 1⟩
        (TransportService.TEvent.recvTextEv ⟨some "status", none⟩)).rearmed = true ∧
    (TransportService.step ⟨⟨HandshakeState.AUTHENTICATED, false⟩, true, some 5, 1⟩
        (TransportService.TEvent.recvTextEv ⟨some "status", none⟩)).next.idleAge = some 0 ∧
    (TransportService.step ⟨⟨HandshakeState.AUTHENTICATED, false⟩, true, some 5, 1⟩
        (TransportService.TEvent.recvTextEv ⟨some "status", none⟩)).sentBinary = none ∧
    (TransportService.step ⟨⟨HandshakeState.AUTHENTICATED, false⟩, true, some 5, 1⟩
        (TransportService.TEvent.recvTextEv ⟨some "status", none⟩)).sentText = false := by
  decide

/-- C5 amended: the idle timer is cancelled and re-armed exactly by the
events that actually send (a binary audio send that passes the
authentication gate, a JSON text send with the socket present) and by every
received text frame — no other event re-arms it; the armed timer fires
(emitting the idle disconnect) only on a clock tick that completes
`IDLE_TIMEOUT` seconds since the last re-arm with the socket present; and
whenever the step disconnects, the reason is "Idle Timeout" and the
resulting state is exactly `disconnect` of the current one. -/
theorem c5_idle_timer_amended : ∀ (s : TransportService) (e : TransportService.TEvent),
    ((TransportService.step s e).rearmed = true ↔
      ((∃ c, e = TransportService.TEvent.sendAudioEv c ∧
          HSM.can_send_audio s.hs = true ∧ s.wsPresent = true) ∨
       (e = TransportService.TEvent.sendJsonEv ∧ s.wsPresent = true) ∨
       (∃ m, e = TransportService.TEvent.recvTextEv m))) ∧
    ((TransportService.step s e).disconnectReason = some "Idle Timeout" ↔
      (e = TransportService.TEvent.tickEv ∧ s.wsPresent = true ∧
        ∃ a, s.idleAge = some a ∧ TransportService.IDLE_TIMEOUT ≤ a + 1)) ∧
    (∀ r, (TransportService.step s e).disconnectReason = some r →
      r = "Idle Timeout" ∧
      (TransportService.step s e).next = TransportService.disconnect s) := by
  intro s e
  cases e with
  | sendAudioEv c =>
    by_cases h : HSM.can_send_audio s.hs = true ∧ s.wsPresent = true <;>
      simp [TransportService.step, TransportService.send_audio, h]
  | sendJsonEv =>
    by_cases h : s.wsPresent = true <;>
      simp_all [TransportService.step, TransportService.send_json]
  | recvTextEv m => simp [TransportService.step]
  | recvBinaryEv => simp [TransportService.step]
  | tickEv =>
    match hia : s.idleAge with
    | none => simp [TransportService.step, TransportService.tick, hia]
    | some a =>
      by_cases hlt : a + 1 < TransportService.IDLE_TIMEOUT
      · simp [TransportService.step, TransportService.tick, hia, hlt]
      · by_cases hws : s.wsPresent
        · simp [TransportService.step, TransportService.tick, hia, hlt, hws]
          omega
        · simp [TransportService.step, TransportService.tick, hia, hlt, hws]

/-- Witness for C5 amended: with the socket present and the timer at age
299, a tick fires the idle disconnect. -/
theorem c5_idle_timer_amended_witness :
    (TransportService.step ⟨⟨HandshakeState.LOCKED, false⟩, true, some 299, 0⟩
        TransportService.TEvent.tickEv).disconnectReason = some "Idle Timeout" :=
  (c5_idle_timer_amended ⟨⟨HandshakeState.LOCKED, false⟩, true, some 299, 0⟩
      TransportService.TEvent.tickEv).2.1.mpr ⟨rfl, rfl, 299, rfl, by decide⟩

/-- C6: `Sanitizer.sanitize` is idempotent — for every string `x`,
`sanitize (sanitize x) = sanitize x`.  A sanitized string contains no ESC
(so the ANSI pass is the identity), only whitelisted characters (so the
whitelist pass is the identity), and is already stripped. -/
theorem c6_sanitize_idempotent : ∀ x : String,
    Sanitizer.sanitize (Sanitizer.sanitize x) = Sanitizer.sanitize x := by
  intro x
  unfold Sanitizer.sanitize
  simp [Sanitizer.sanitizeCore_idem]

/-- C7: every code point of `sanitize x` lies in `{0x20..0x7E} ∪
{\n, \r, \t}` (the whitelist), the result carries no leading or trailing
whitespace, and the empty input yields the empty string (input that cleans
to empty yields empty by the same ∀-statement). -/
theorem c7_sanitize_whitelist : ∀ x : String,
    (∀ c ∈ (Sanitizer.sanitize x).data, Sanitizer.isWhitelisted c = true) ∧
    (∀ c, (Sanitizer.sanitize x).data.head? = some c →
      Sanitizer.isPyWhitespace c = false) ∧
    (∀ c, (Sanitizer.sanitize x).data.getLast? = some c →
      Sanitizer.isPyWhitespace c = false) ∧
    Sanitizer.sanitize "" = "" := by
  intro x
  refine ⟨?_, ?_, ?_, by decide⟩
  · intro c hc
    exact Sanitizer.mem_sanitizeCore_whitelisted _ _ hc
  · intro c hc
    by_cases hl : x.data = []
    · simp [Sanitizer.sanitize, Sanitizer.sanitizeCore, hl] at hc
    · simp only [Sanitizer.sanitize, Sanitizer.sanitizeCore, if_neg hl] at hc
      exact Sanitizer.head?_pstrip _ _ hc
  · intro c hc
    by_cases hl : x.data = []
    · simp [Sanitizer.sanitize, Sanitizer.sanitizeCore, hl] at hc
    · simp only [Sanitizer.sanitize, Sanitizer.sanitizeCore, if_neg hl] at hc
      exact Sanitizer.getLast?_pstrip _ _ hc

/-- Witness for C7: on input `" \x1b[31mab "` (whose sanitized form is
`"ab"`) the head is the non-whitespace, whitelisted character `a`. -/
theorem c7_sanitize_whitelist_witness :
    Sanitizer.isWhitelisted 'a' = true ∧ Sanitizer.isPyWhitespace 'a' = false :=
  ⟨(c7_sanitize_whitelist " \x1b[31mab ").1 'a' (by decide),
   (c7_sanitize_whitelist " \x1b[31mab ").2.1 'a' (by decide)⟩

/-- C8: the buffer cap: every operation preserves `count ≤ MAX_CHUNKS`
(= 20000), and `add` on a full buffer in buffering mode evicts the oldest
chunk (FIFO, `pop(0)`) before appending, keeping the count at the cap. -/
theorem c8_buffer_bound : ∀ (b : AudioBufferManager) (c : Chunk),
    b.buffer.length ≤ AudioBufferManager.MAX_CHUNKS →
    ((AudioBufferManager.add b c).buffer.length ≤ AudioBufferManager.MAX_CHUNKS ∧
     (AudioBufferManager.flush b).1.buffer.length ≤ AudioBufferManager.MAX_CHUNKS ∧
     (AudioBufferManager.clear b).buffer.length ≤ AudioBufferManager.MAX_CHUNKS) ∧
    (b.buffer.length = AudioBufferManager.MAX_CHUNKS → b.isBuffering = true →
      (AudioBufferManager.add b c).buffer = b.buffer.tail ++ [c] ∧
      (AudioBufferManager.add b c).buffer.length = AudioBufferManager.MAX_CHUNKS) := by
  intro b c hle
  constructor
  · refine ⟨?_, ?_, ?_⟩
    · by_cases hb : b.isBuffering = true
      · by_cases hfull : AudioBufferManager.MAX_CHUNKS ≤ b.buffer.length
        · have h : (AudioBufferManager.add b c).buffer = b.buffer.tail ++ [c] := by
            simp [AudioBufferManager.add, hb, hfull]
          rw [h]
          simp only [List.length_append, List.length_tail, List.length_cons,
            List.length_nil]
          unfold AudioBufferManager.MAX_CHUNKS at hle ⊢
          omega
        · have h : (AudioBufferManager.add b c).buffer = b.buffer ++ [c] := by
            simp [AudioBufferManager.add, hb, hfull]
          rw [h]
          simp only [List.length_append, List.length_cons, List.length_nil]
          unfold AudioBufferManager.MAX_CHUNKS at hfull ⊢
          omega
      · have h : AudioBufferManager.add b c = b := by
          simp [AudioBufferManager.add, hb]
        rw [h]
        exact hle
    · by_cases hemp : b.buffer = []
      · have h : (AudioBufferManager.flush b).1.buffer = b.buffer := by
          simp [AudioBufferManager.flush, hemp]
        rw [h]
        exact hle
      · have h : (AudioBufferManager.flush b).1.buffer = [] := by
          simp [AudioBufferManager.flush, hemp]
        rw [h]
        simp [AudioBufferManager.MAX_CHUNKS]
    · simp [AudioBufferManager.clear, AudioBufferManager.MAX_CHUNKS]
  · intro hfull hb
    have h1 : AudioBufferManager.MAX_CHUNKS ≤ b.buffer.length := le_of_eq hfull.symm
    have hadd : (AudioBufferManager.add b c).buffer = b.buffer.tail ++ [c] := by
      simp [AudioBufferManager.add, hb, h1]
    refine ⟨hadd, ?_⟩
    rw [hadd]
    simp only [List.length_append, List.length_tail, List.length_cons, List.length_nil]
    unfold AudioBufferManager.MAX_CHUNKS at hfull ⊢
    omega

/-- Witness for C8: a full 20000-chunk buffer stays at 20000 after `add`,
with the oldest chunk evicted. -/
theorem c8_buffer_bound_witness :
    (AudioBufferManager.mk (List.replicate 20000 ([] : Chunk)) true).buffer.length ≤
      AudioBufferManager.MAX_CHUNKS ∧
    (AudioBufferManager.add
        (AudioBufferManager.mk (List.replicate 20000 ([] : Chunk)) true) [7]).buffer =
      (List.replicate 20000 ([] : Chunk)).tail ++ [[7]] ∧
    (AudioBufferManager.add
        (AudioBufferManager.mk (List.replicate 20000 ([] : Chunk)) true) [7]).buffer.length =
      AudioBufferManager.MAX_CHUNKS := by
  have hlen : (List.replicate 20000 ([] : Chunk)).length = 20000 :=
    List.length_replicate _ _
  have hle : (AudioBufferManager.mk (List.replicate 20000 ([] : Chunk)) true).buffer.length ≤
      AudioBufferManager.MAX_CHUNKS := by
    show (List.replicate 20000 ([] : Chunk)).length ≤ _
    rw [hlen]
    decide
  have heq : (AudioBufferManager.mk (List.replicate 20000 ([] : Chunk)) true).buffer.length =
      AudioBufferManager.MAX_CHUNKS := by
    show (List.replicate 20000 ([] : Chunk)).length = _
    rw [hlen]
    rfl
  have h := c8_buffer_bound (AudioBufferManager.mk (List.replicate 20000 ([] : Chunk)) true)
    [7] hle
  have h2 := h.2 heq rfl
  exact ⟨hle, h2.1, h2.2⟩

/-- C9: `flush` passes exactly the chunks buffered at the time of the call
to `send_fn`, once each and in original insertion order; the trace shows
`_is_buffering` is switched off before any send is awaited; and after
`flush` the buffer is empty and buffering is false, also when it was
already empty. -/
theorem c9_flush_contract : ∀ b : AudioBufferManager,
    (AudioBufferManager.flush b).1.buffer = [] ∧
    (AudioBufferManager.flush b).1.isBuffering = false ∧
    AudioBufferManager.sentChunks (AudioBufferManager.flush b).2 = b.buffer ∧
    (∃ pre, (AudioBufferManager.flush b).2 =
        pre ++ b.buffer.map AudioBufferManager.FlushStep.send ∧
      AudioBufferManager.FlushStep.stopBuffering ∈ pre ∧
      ∀ x ∈ pre, AudioBufferManager.isSend x = false) := by
  intro b
  by_cases hemp : b.buffer = []
  · refine ⟨by simp [AudioBufferManager.flush, hemp],
      by simp [AudioBufferManager.flush, hemp],
      by simp [AudioBufferManager.flush, hemp, AudioBufferManager.sentChunks], ?_⟩
    exact ⟨[AudioBufferManager.FlushStep.stopBuffering],
      by simp [AudioBufferManager.flush, hemp], by simp, by decide⟩
  · refine ⟨by simp [AudioBufferManager.flush, hemp],
      by simp [AudioBufferManager.flush, hemp], ?_, ?_⟩
    · simp [AudioBufferManager.flush, hemp, AudioBufferManager.sentChunks,
        List.filterMap_map]
      exact List.filterMap_some b.buffer
    · exact ⟨[AudioBufferManager.FlushStep.clearBuffer,
        AudioBufferManager.FlushStep.stopBuffering],
        by simp [AudioBufferManager.flush, hemp], by simp, by decide⟩

/-- C10: `add` while buffering is false (after a flush, before the next
`clear`) leaves the manager entirely unchanged — contents, count and flag. -/
theorem c10_add_after_flush_noop : ∀ (b : AudioBufferManager) (c : Chunk),
    b.isBuffering = false → AudioBufferManager.add b c = b := by
  intro b c h
  simp [AudioBufferManager.add, h]

/-- Witness for C10: adding to a non-buffering manager changes nothing. -/
theorem c10_add_after_flush_noop_witness :
    AudioBufferManager.add (AudioBufferManager.mk [[1]] false) [2] =
      AudioBufferManager.mk [[1]] false :=
  c10_add_after_flush_noop (AudioBufferManager.mk [[1]] false) [2] rfl
